import Mathlib

/-!
Verification development for the 3270 page-object automation core
(`base_page.py`, `enums.py`, `terminal_config.py`).

The screen grid is modelled as a list of rows, each row a list of
characters (`Row := List Char`).  The configured screen has
`SCREEN_ROWS = 24` rows of `SCREEN_COLS = 80` characters; the model
functions take the grid as an explicit argument, whose length plays the
role of `SCREEN_ROWS` (the Python loops run `for row in range(1, rows+1)`
and read one full row per iteration via `emulator.string_get(row, 1, cols)`).

Device traffic of the key-dispatch and paced-typing paths is modelled as
an explicit event trace (`Ev`).  Fallible screen capture (used by the
error constructors) is modelled with an emulator record whose row reads
return `Except`.
-/

namespace Autpy

/-- A screen row: the string returned by `emulator.string_get(row, 1, cols)`. -/
abbrev Row := List Char

/-- `matchesAtB line label i` holds when `label` occurs in `line` starting at
0-based position `i` — the specification of a successful Python
`line.find(label)` hit at `i`. -/
def matchesAtB (line label : Row) (i : Nat) : Bool :=
  label.isPrefixOf (line.drop i)

/-- Python `line.find(label)`: 0-based index of the leftmost occurrence of
`label` in `line`, `none` for the `-1` (not found) result.  Matches CPython
semantics: the empty label is found at index 0. -/
def firstIdx (line label : Row) : Option Nat :=
  match line with
  | [] => if label.isEmpty then some 0 else none
  | _ :: cs =>
    if label.isPrefixOf line then some 0
    else (firstIdx cs label).map (· + 1)

/-- The column computed by `Utils.find_and_send_text` once the label is found
at 0-based index `idx`: `col = idx + len(field) + offset` (source line 256).
The result is handed to `emulator.move_to(row, col)`, whose column argument
is 1-based. -/
def sendCol (idx len : Nat) (offset : Int) : Int :=
  (idx : Int) + (len : Int) + offset

/-- The column computed by `Utils.find_text_position` once the label is found
at 0-based index `idx` (source lines 270-273):
`idx + len(field) + offset` when `offset >= 0`, and `idx - abs(offset) + 1`
when `offset < 0`. -/
def posCol (idx len : Nat) (offset : Int) : Int :=
  if 0 ≤ offset then (idx : Int) + (len : Int) + offset
  else (idx : Int) - (offset.natAbs : Int) + 1

/-- The row scan shared verbatim by `find_and_send_text` and
`find_text_position`: iterate the rows in order (`n` is the 1-based number
of the first row still to examine), read one full row per iteration, and
stop at the first row in which `line.find(field)` succeeds.  Returns the
1-based row number with the 0-based match index, plus the number of rows
read (`reads` accumulates the `string_get` calls already made). -/
def findTrAux (grid : List Row) (field : Row) (n reads : Nat) :
    Option (Nat × Nat) × Nat :=
  match grid with
  | [] => (none, reads)
  | r :: rs =>
    match firstIdx r field with
    | some i => (some (n, i), reads + 1)
    | none => findTrAux rs field (n + 1) (reads + 1)

/-- `Utils.find_text_position(emulator, field, offset)` together with the
number of full-row reads it performs.  `None` becomes `(none, _)`. -/
def findTextPositionTr (grid : List Row) (field : Row) (offset : Int) :
    Option (Nat × Int) × Nat :=
  match findTrAux grid field 1 0 with
  | (some (r, i), reads) => (some (r, posCol i field.length offset), reads)
  | (none, reads) => (none, reads)

/-- `Utils.find_text_position` proper: just the returned position. -/
def findTextPosition (grid : List Row) (field : Row) (offset : Int) :
    Option (Nat × Int) :=
  (findTextPositionTr grid field offset).1

/-- Overwrite `row` with `v` starting at 0-based position `start` — the
effect of `emulator.send_string(v)` with the cursor at that cell.  (All
uses in this development stay inside the row, so no wrap-around to the
next row needs modelling.) -/
def writeRow (row : Row) (start : Nat) (v : Row) : Row :=
  row.take start ++ v ++ row.drop (start + v.length)

/-- `Utils.find_and_send_text(emulator, field, value, offset)`: scan
exactly as `find_text_position` does; at the first hit compute
`col = idx + len(field) + offset`, `move_to(row, col)` (1-based column,
hence the `col - 1` conversion), write `value`, and report success by
returning the updated grid; report `False` as `none`. -/
def findAndSendText (grid : List Row) (field value : Row) (offset : Int) :
    Option (List Row) :=
  match findTrAux grid field 1 0 with
  | (some (r, i), _) =>
    let col := sendCol i field.length offset
    some (grid.set (r - 1) (writeRow (grid.getD (r - 1) []) (col - 1).toNat value))
  | (none, _) => none

/-- `emulator.string_get(row, col, length)` with a 1-based `(row, col)`:
read `length` characters of row `row` starting at column `col`. -/
def stringGetRegion (grid : List Row) (row : Nat) (col : Int) (len : Nat) : Row :=
  ((grid.getD (row - 1) []).drop (col - 1).toNat).take len

/-- Python `str.strip()`: remove leading and trailing whitespace. -/
def pyStrip (s : Row) : Row :=
  ((s.dropWhile Char.isWhitespace).reverse.dropWhile Char.isWhitespace).reverse

/-- `Utils.get_value_from_field(emulator, field, offset, length)`: locate the
field via `find_text_position`, read `length` characters there, and strip;
`None` when the field is not found. -/
def getValueFromField (grid : List Row) (field : Row) (offset : Int)
    (len : Nat) : Option Row :=
  match findTextPosition grid field offset with
  | some (r, col) => some (pyStrip (stringGetRegion grid r col len))
  | none => none

/-- `'\n'.join(...)` over the captured screen rows. -/
def joinRows (rows : List Row) : Row :=
  List.intercalate ['\n'] rows

/-- The error taxonomy of `base_page.py` (subclasses of `TerminalError`),
as data: kind plus the fields each constructor receives, with the optional
screen snapshot that `TerminalError.__init__` stores. -/
inductive TErr where
  | fieldNotFound (field : Row) (screen : Row)
  | inputError (field value errMsg : Row) (screen : Row)
  | keySendError (keyName errMsg : Row) (screen : Row)
  | screenError (errMsg operation : Row) (screen : Option Row)
deriving DecidableEq, Repr

/-- `BasePage.input_text(field, value, offset)` on a functioning device.
`find_and_send_text` either writes and returns `True` (here: the updated
grid) or returns `False`, upon which `FieldNotFoundError(field, emulator)`
is raised; its constructor captures the screen and joins the rows with
newlines.  (`TerminalError.__init__` ends in `pytest.fail`, which raises a
`BaseException`-derived outcome, so the surfacing failure bypasses the
`except Exception` handler of `input_text` and carries exactly the
constructed error's kind and message; the model therefore reports the
constructed `FieldNotFoundError` as the raised error.) -/
def inputTextModel (grid : List Row) (field value : Row) (offset : Int) :
    Except TErr (List Row) :=
  match findAndSendText grid field value offset with
  | some g => .ok g
  | none => .error (.fieldNotFound field (joinRows grid))

/-- An emulator whose row reads can fail: `stringGetRow r` models
`emulator.string_get(r, 1, cols)` raising (`.error msg`) or returning the
row text. -/
structure EmuR where
  stringGetRow : Nat → Except String Row

/-- The loop body of `Utils.get_screen`: read rows `r, r+1, ...` for `n`
more iterations, appending each line; a raising read propagates. -/
def getScreenAux (em : EmuR) : Nat → Nat → Except String (List Row)
  | 0, _ => .ok []
  | n + 1, r =>
    match em.stringGetRow r with
    | .error e => .error e
    | .ok line =>
      match getScreenAux em n (r + 1) with
      | .error e => .error e
      | .ok rest => .ok (line :: rest)

/-- `Utils.get_screen(emulator)`: read rows `1..24` in order. -/
def getScreenE (em : EmuR) : Except String (List Row) :=
  getScreenAux em 24 1

/-- Constructing `FieldNotFoundError(field, emulator)` (source lines 57-66):
`screen_content = '\n'.join(Utils.get_screen(emulator))` runs with no
`try`/`except`, so a raising capture escapes the constructor (`.error`),
replacing the field-not-found failure that was being raised. -/
def mkFieldNotFoundE (field : Row) (em : EmuR) : Except String TErr :=
  match getScreenE em with
  | .error e => .error e
  | .ok lines => .ok (.fieldNotFound field (joinRows lines))

/-- Constructing `InputError(field, value, error, emulator)` (source lines
68-77): the capture is likewise unguarded. -/
def mkInputErrorE (field value errMsg : Row) (em : EmuR) : Except String TErr :=
  match getScreenE em with
  | .error e => .error e
  | .ok lines => .ok (.inputError field value errMsg (joinRows lines))

/-- Constructing `KeyError(key, error, emulator)` (source lines 79-88): the
capture is likewise unguarded. -/
def mkKeySendErrorE (keyName errMsg : Row) (em : EmuR) : Except String TErr :=
  match getScreenE em with
  | .error e => .error e
  | .ok lines => .ok (.keySendError keyName errMsg (joinRows lines))

/-- The placeholder text substituted by `ScreenError.__init__` when the
capture itself raises, with the capture exception's message appended. -/
def capturePlaceholder (e : String) : Row :=
  "Não foi possível capturar o conteúdo da tela: ".toList ++ e.toList

/-- Constructing `ScreenError(error, operation, emulator)` (source lines
90-104): the only constructor that wraps the capture in `try`/`except`.
On success the snapshot is attached only when non-empty (`if screen_lines:`);
on a raising capture the placeholder diagnostic string is substituted and
the `ScreenError` itself still surfaces. -/
def mkScreenErrorE (errMsg operation : Row) (em : EmuR) : TErr :=
  let screen : Option Row :=
    match getScreenE em with
    | .ok lines => if lines.isEmpty then none else some (joinRows lines)
    | .error e => some (capturePlaceholder e)
  .screenError errMsg operation screen

/-- An emulator every one of whose row reads raises with message `e`. -/
def failEmu (e : String) : EmuR :=
  ⟨fun _ => .error e⟩

/-- An emulator backed by a concrete grid: row `r` (1-based) reads
`grid[r-1]`. -/
def gridEmu (grid : List Row) : EmuR :=
  ⟨fun r => .ok (grid.getD (r - 1) [])⟩

/-- The `Key` enum of `enums.py`: the declared closed key set. -/
inductive Key where
  | ENTER | TAB | CLEAR | RESET | BACKSPACE | DELETE | NEWLINE
  | PF1 | PF2 | PF3 | PF4 | PF5 | PF6 | PF7 | PF8 | PF9 | PF10 | PF11 | PF12
  | PF13 | PF14 | PF15 | PF16 | PF17 | PF18 | PF19 | PF20 | PF21 | PF22
  | PF23 | PF24
  | PA1 | PA2 | PA3
deriving DecidableEq, Repr

/-- Device-affecting events issued to the emulator (in issue order). -/
inductive Ev where
  | execCommand (cmd : String)
  | sendPf (n : String)
  | sendEnter
  | sendChar (c : Char)
  | moveTo (row : Nat) (col : Int)
  | sleepOneSec
  | sleepCharDelay
  | waitForField
deriving DecidableEq, Repr

/-- `True` exactly for the events that issue an emulator command
(`exec_command`, `send_pf*`, `send_enter`) as opposed to delays and the
ready-for-input wait. -/
def isDeviceCommand : Ev → Bool
  | .execCommand _ => true
  | .sendPf _ => true
  | .sendEnter => true
  | _ => false

/-- The device events fired while the `key_methods` dict literal of
`Utils.send_key` (source lines 307-344) is evaluated.  Python evaluates
every value expression of a dict literal eagerly, in order; the entries
written as calls — `em.exec_command(b'...')` and `em.send_pf('...')` —
therefore issue their emulator command during construction, while the
entries written as bare attribute references (`em.send_enter`,
`em.send_pf2`, `em.send_pf4` … `em.send_pf8`) fire nothing. -/
def keyMethodsBuildEvents : List Ev :=
  [.execCommand "Tab", .execCommand "Clear", .execCommand "Reset",
   .execCommand "Backspace", .execCommand "Delete", .execCommand "Newline",
   .sendPf "1", .sendPf "2",
   .sendPf "9", .sendPf "10", .sendPf "11", .sendPf "12", .sendPf "13",
   .sendPf "14", .sendPf "15", .sendPf "16", .sendPf "17", .sendPf "18",
   .sendPf "19", .sendPf "20", .sendPf "21", .sendPf "22", .sendPf "23",
   .sendPf "24",
   .execCommand "PA1", .execCommand "PA2", .execCommand "PA3"]

/-- The bound methods stored (uncalled) as dict values: calling one later
fires the listed event. -/
inductive CallTag where
  | enter
  | pfMeth (n : Nat)
deriving DecidableEq, Repr

/-- The event fired by calling a stored bound method: `em.send_enter()` or
`em.send_pfN()`. -/
def callEvents : CallTag → List Ev
  | .enter => [.sendEnter]
  | .pfMeth n => [.sendPf (toString n)]

/-- What `key_methods[key]` holds after construction: a callable bound
method for the entries written as attribute references, and a non-callable
leftover (the `exec_command` result object, or `None` from an already-run
`send_pf(...)` call) for the entries that were written as calls.  N.B. the
source maps `Key.PF3` to `em.send_pf2` (a typo), so dispatching PF3 would
send PF2. -/
def keyMethodsLookup : Key → Option CallTag
  | .ENTER => some .enter
  | .PF3 => some (.pfMeth 2)
  | .PF4 => some (.pfMeth 4)
  | .PF5 => some (.pfMeth 5)
  | .PF6 => some (.pfMeth 6)
  | .PF7 => some (.pfMeth 7)
  | .PF8 => some (.pfMeth 8)
  | _ => none

/-- Python exceptions `send_key` can terminate with: the explicit
`ValueError("Tecla ... não suportada")`, or the `TypeError` from calling a
non-callable dict value. -/
inductive PyExc where
  | valueError
  | typeError
deriving DecidableEq, Repr

/-- The argument passed for `key`: a declared `Key` variant, or any other
Python value (modelled by its repr); only `Key` variants are dict keys, so
any other value fails the `key in key_methods` test. -/
inductive PyKeyArg where
  | key (k : Key)
  | nonKey (repr : String)
deriving DecidableEq, Repr

/-- `Utils.send_key(em, key, wait)` (source lines 296-353), as result plus
the full device-event trace: the dict-literal construction events always
fire first; then a non-`Key` argument raises `ValueError`; a `Key` whose
stored value is callable is dispatched (followed, when `wait` is true, by
`time.sleep(1)` then `em.wait_for_field()`); a `Key` whose stored value is
the non-callable leftover of a construction-time call raises `TypeError`
at `key_methods[key]()`. -/
def sendKey (k : PyKeyArg) (wait : Bool) : Except PyExc Unit × List Ev :=
  match k with
  | .nonKey _ => (.error .valueError, keyMethodsBuildEvents)
  | .key kk =>
    match keyMethodsLookup kk with
    | some t =>
      let evs := keyMethodsBuildEvents ++ callEvents t
      if wait then (.ok (), evs ++ [.sleepOneSec, .waitForField])
      else (.ok (), evs)
    | none => (.error .typeError, keyMethodsBuildEvents)

/-- `Utils.send_text(emulator, value)` (source lines 355-360) as a device
trace: `for char in value: emulator.send_string(char); time.sleep(CHAR_DELAY)`,
then one `emulator.wait_for_field()`. -/
def sendTextTrace : List Char → List Ev
  | [] => [.waitForField]
  | c :: cs => .sendChar c :: .sleepCharDelay :: sendTextTrace cs

/-- An all-blank 80-column row. -/
def blankRow : Row := List.replicate 80 ' '

/-- Scenario B label: `"Password  ===>"` (length 14). -/
def pwLabel : Row := "Password  ===>".toList

/-- Scenario B 24×80 grid: row 5 holds the label starting at column 1
(0-based index 0), all other rows blank. -/
def scenarioB : List Row :=
  [blankRow, blankRow, blankRow, blankRow,
   "Password  ===>".toList ++ List.replicate 66 ' '] ++
  List.replicate 19 blankRow

/-- Scenario C label `"Field:"`. -/
def fieldLabel : Row := "Field:".toList

/-- The value written in the round-trip scenarios. -/
def abcde : Row := "ABCDE".toList

/-- A 24×80 grid whose row 1 holds `"Field:"` at column 1, rest blank. -/
def gridField : List Row :=
  ("Field:".toList ++ List.replicate 74 ' ') :: List.replicate 23 blankRow

/-- A 24×80 grid containing no occurrence of `"XYZ"`: all rows blank. -/
def grid24blank : List Row := List.replicate 24 blankRow

/-- A label absent from `grid24blank`. -/
def xyzLabel : Row := "XYZ".toList

/-- `firstIdx` returns the leftmost occurrence: a hit at `i`, and no hit at
any earlier position. -/
theorem firstIdx_leftmost (line label : Row) :
    ∀ i, firstIdx line label = some i →
      matchesAtB line label i = true ∧
      ∀ j, j < i → matchesAtB line label j = false := by
  induction line with
  | nil =>
    intro i h
    unfold firstIdx at h
    split at h
    next hemp =>
      cases h
      refine ⟨?_, fun j hj => absurd hj (by omega)⟩
      have : label = [] := by simpa [List.isEmpty_iff] using hemp
      simp [matchesAtB, this, List.isPrefixOf]
    next => exact absurd h (by simp)
  | cons c cs ih =>
    intro i h
    unfold firstIdx at h
    split at h
    next hpre =>
      cases h
      exact ⟨by simpa [matchesAtB] using hpre, fun j hj => absurd hj (by omega)⟩
    next hpre =>
      obtain ⟨i0, h0, rfl⟩ := Option.map_eq_some'.mp h
      obtain ⟨h1, h2⟩ := ih i0 h0
      refine ⟨by simpa [matchesAtB] using h1, ?_⟩
      intro j hj
      cases j with
      | zero =>
        simp only [matchesAtB, List.drop_zero]
        exact Bool.of_not_eq_true hpre
      | succ j0 =>
        simpa [matchesAtB] using h2 j0 (by omega)

/-- When the label occurs in no row the scan exhausts the grid, reading one
row per grid row. -/
theorem findTrAux_absent (grid : List Row) (field : Row)
    (h : ∀ row ∈ grid, firstIdx row field = none) :
    ∀ n reads, findTrAux grid field n reads = (none, reads + grid.length) := by
  induction grid with
  | nil => intro n reads; simp [findTrAux]
  | cons r rs ih =>
    intro n reads
    have hr : firstIdx r field = none := h r (by simp)
    have hrest : ∀ row ∈ rs, firstIdx row field = none :=
      fun row hrow => h row (by simp [hrow])
    simp only [findTrAux, hr]
    rw [ih hrest (n + 1) (reads + 1)]
    simp only [List.length_cons, Prod.mk.injEq, true_and]
    omega

/-- When the first occurrence of the label is in row `r` (0-based list
index) at 0-based column index `i`, the scan stops there, having read
exactly `r + 1` rows. -/
theorem findTrAux_first (grid : List Row) (field : Row) :
    ∀ (r i n reads : Nat), r < grid.length →
    (∀ j, j < r → firstIdx (grid.getD j []) field = none) →
    firstIdx (grid.getD r []) field = some i →
    findTrAux grid field n reads = (some (n + r, i), reads + r + 1) := by
  induction grid with
  | nil => intro r i n reads hr _ _; simp at hr
  | cons row rs ih =>
    intro r i n reads hr hnone hsome
    cases r with
    | zero =>
      simp only [List.getD_cons_zero] at hsome
      simp [findTrAux, hsome]
    | succ r0 =>
      have h0 : firstIdx row field = none := by
        simpa using hnone 0 (Nat.succ_pos r0)
      simp only [findTrAux, h0]
      rw [ih r0 i (n + 1) (reads + 1) (by simpa using hr)
        (fun j hj => by simpa using hnone (j + 1) (by omega))
        (by simpa using hsome)]
      have e1 : n + 1 + r0 = n + (r0 + 1) := by omega
      have e2 : reads + 1 + r0 + 1 = reads + (r0 + 1) + 1 := by omega
      rw [e1, e2]

/-- `find_text_position` with an absent label: `None` after reading every
row. -/
theorem findTextPositionTr_absent (grid : List Row) (field : Row)
    (offset : Int) (h : ∀ row ∈ grid, firstIdx row field = none) :
    findTextPositionTr grid field offset = (none, grid.length) := by
  unfold findTextPositionTr
  rw [findTrAux_absent grid field h 1 0]
  simp

/-- `find_text_position` at the first matching row: position
`(r + 1, posCol i len offset)` (1-based row). -/
theorem findTextPosition_first (grid : List Row) (field : Row) (offset : Int)
    (r i : Nat) (hr : r < grid.length)
    (hnone : ∀ j, j < r → firstIdx (grid.getD j []) field = none)
    (hsome : firstIdx (grid.getD r []) field = some i) :
    findTextPosition grid field offset =
      some (r + 1, posCol i field.length offset) := by
  unfold findTextPosition findTextPositionTr
  rw [findTrAux_first grid field r i 1 0 hr hnone hsome]
  simp [Nat.add_comm]

/-- `find_and_send_text` with an absent label returns `False`. -/
theorem findAndSendText_absent (grid : List Row) (field value : Row)
    (offset : Int) (h : ∀ row ∈ grid, firstIdx row field = none) :
    findAndSendText grid field value offset = none := by
  unfold findAndSendText
  rw [findTrAux_absent grid field h 1 0]

/-- The paced-typing trace in closed form: one `send_string(char)` followed
by one inter-character delay per character, then the single
`wait_for_field`. -/
theorem sendTextTrace_eq (value : List Char) :
    sendTextTrace value =
      (value.flatMap fun c => [Ev.sendChar c, Ev.sleepCharDelay]) ++
        [Ev.waitForField] := by
  induction value with
  | nil => rfl
  | cons c cs ih => simp [sendTextTrace, ih]

/-- The paced-typing trace contains exactly one `wait_for_field`. -/
theorem sendTextTrace_count_wait (value : List Char) :
    (sendTextTrace value).count Ev.waitForField = 1 := by
  induction value with
  | nil => rfl
  | cons c cs ih => simp [sendTextTrace, List.count_cons, ih]

/-- The paced-typing trace ends with the `wait_for_field`. -/
theorem sendTextTrace_last (value : List Char) :
    (sendTextTrace value).getLast? = some Ev.waitForField := by
  rw [sendTextTrace_eq]
  exact List.getLast?_concat _

/-- C1 counterexample: on the Scenario B grid — a 24×80 screen whose row 5
holds `"Password  ===>"` (length 14) starting at column 1 — the source's
`find_text_position(field, 2)` returns `(5, 16)` (`idx + len + offset` with
the 0-based `idx = 0`), not the `(5, 17)` the claim states. -/
theorem find_scenarioB_counterexample :
    findTextPosition scenarioB pwLabel 2 = some (5, 16) ∧
    findTextPosition scenarioB pwLabel 2 ≠ some (5, 17) := by
  decide

/-- C1 (amended): with `i` the 0-based index of the leftmost occurrence of
the label in the first matching row, `find_text_position` returns
`(row, i + len(L) + offset)` for `offset ≥ 0` and `(row, i + offset + 1)`
(i.e. `i − |offset| + 1`) for `offset < 0`; on the Scenario B grid the
result is therefore `(5, 16)`. -/
theorem find_text_position_amended :
    (∀ (grid : List Row) (field : Row) (offset : Int) (r i : Nat),
        r < grid.length →
        (∀ j, j < r → firstIdx (grid.getD j []) field = none) →
        firstIdx (grid.getD r []) field = some i →
        findTextPosition grid field offset =
          some (r + 1,
            if 0 ≤ offset then (i : Int) + (field.length : Int) + offset
            else (i : Int) + offset + 1)) ∧
    findTextPosition scenarioB pwLabel 2 = some (5, 16) := by
  constructor
  · intro grid field offset r i hr hnone hsome
    rw [findTextPosition_first grid field offset r i hr hnone hsome]
    have hcol : posCol i field.length offset =
        if 0 ≤ offset then (i : Int) + (field.length : Int) + offset
        else (i : Int) + offset + 1 := by
      unfold posCol
      split
      · rfl
      · omega
    rw [hcol]
  · decide

/-- C1 witness: the amended formula applied on the Scenario B grid with
first match in row 5 (list index 4) at 0-based index 0. -/
theorem find_text_position_amended_witness :
    findTextPosition scenarioB pwLabel 2 = some (5, 16) := by
  have h := find_text_position_amended.1 scenarioB pwLabel 2 4 0
    (by decide) (by decide) (by decide)
  rw [h]
  decide

/-- C7: scanning behaviour of `find_text_position` — an absent label yields
`None` after reading exactly one full row per grid row; `line.find` reports
the leftmost in-row occurrence; and the first matching row (top-to-bottom)
is the one whose match is used for the returned position. -/
theorem find_text_position_scan_spec :
    (∀ (grid : List Row) (field : Row) (offset : Int),
        (∀ row ∈ grid, firstIdx row field = none) →
        findTextPositionTr grid field offset = (none, grid.length)) ∧
    (∀ (line label : Row) (i : Nat), firstIdx line label = some i →
        matchesAtB line label i = true ∧
        ∀ j, j < i → matchesAtB line label j = false) ∧
    (∀ (grid : List Row) (field : Row) (offset : Int) (r i : Nat),
        r < grid.length →
        (∀ j, j < r → firstIdx (grid.getD j []) field = none) →
        firstIdx (grid.getD r []) field = some i →
        findTextPosition grid field offset =
          some (r + 1, posCol i field.length offset)) :=
  ⟨findTextPositionTr_absent,
   fun line label => firstIdx_leftmost line label,
   findTextPosition_first⟩

/-- C7 witness: the three parts of the scan specification at concrete
inputs — a label absent from a blank 24-row grid is reported `None` after
24 row reads; the Scenario B row matches leftmost at index 0; a grid with
the label in row 1 yields position `(1, posCol 0 6 3)`. -/
theorem find_text_position_scan_spec_witness :
    findTextPositionTr grid24blank xyzLabel 0 = (none, 24) ∧
    matchesAtB (scenarioB.getD 4 []) pwLabel 0 = true ∧
    findTextPosition gridField fieldLabel 3 = some (1, posCol 0 6 3) := by
  refine ⟨?_, ?_, ?_⟩
  · have h := find_text_position_scan_spec.1 grid24blank xyzLabel 0 (by decide)
    simpa [grid24blank] using h
  · exact (find_text_position_scan_spec.2.1 (scenarioB.getD 4 []) pwLabel 0
      (by decide)).1
  · have h := find_text_position_scan_spec.2.2 gridField fieldLabel 3 0 0
      (by decide) (by decide) (by decide)
    simpa [fieldLabel] using h

/-- C6: on a 24-row grid containing the label in no row, `input_text`
raises `FieldNotFoundError` — not `InputError` or any other kind, and it
does not return normally — and the snapshot attached to it is all the
screen rows joined with line breaks. -/
theorem input_text_absent_raises (grid : List Row) (field value : Row)
    (offset : Int) (_h24 : grid.length = 24)
    (habs : ∀ row ∈ grid, firstIdx row field = none) :
    inputTextModel grid field value offset =
      .error (.fieldNotFound field (joinRows grid)) := by
  unfold inputTextModel
  rw [findAndSendText_absent grid field value offset habs]

/-- C6 witness: the blank 24×80 grid with the absent label `"XYZ"`. -/
theorem input_text_absent_raises_witness :
    inputTextModel grid24blank xyzLabel abcde 0 =
      .error (.fieldNotFound xyzLabel (joinRows grid24blank)) :=
  input_text_absent_raises grid24blank xyzLabel abcde 0 (by decide) (by decide)

/-- C2: evaluating the `key_methods` dict literal is not pure — the entries
written as calls fire their emulator command while the mapping is being
built: 27 device commands (6 `exec_command`, 18 `send_pf`, 3 PA
`exec_command`) are issued during construction, before any key is
dispatched. -/
theorem key_methods_construction_fires_commands :
    keyMethodsBuildEvents ≠ [] ∧
    keyMethodsBuildEvents.length = 27 ∧
    keyMethodsBuildEvents.countP isDeviceCommand = 27 := by
  decide

/-- C3: for any value outside the declared `Key` set, `send_key` does raise
(`ValueError`, the code's stand-in for `UnsupportedKeyError`) and performs
no send for the key itself — but only after the 27 device commands fired by
the dict-literal construction, not with zero device interactions. -/
theorem send_key_unsupported_fires_commands (s : String) (wait : Bool) :
    sendKey (.nonKey s) wait = (.error .valueError, keyMethodsBuildEvents) ∧
    keyMethodsBuildEvents.countP isDeviceCommand = 27 := by
  exact ⟨rfl, by decide⟩

/-- C4: the full device trace of `send_key(em, Key.ENTER, wait=True)`: the
27 construction-time commands, then the ENTER send, then the fixed
`sleep(1)`, then the single `wait_for_field` — 28 device commands in
total, not exactly one. -/
theorem send_key_enter_trace :
    (sendKey (.key Key.ENTER) true).2 =
      keyMethodsBuildEvents ++ [Ev.sendEnter, Ev.sleepOneSec, Ev.waitForField] ∧
    (sendKey (.key Key.ENTER) true).2.countP isDeviceCommand = 28 ∧
    (sendKey (.key Key.ENTER) true).1 = .ok () := by
  refine ⟨by decide, by decide, rfl⟩

/-- C5: on the grid whose row 1 holds `"Field:"` at column 1,
`input_text("Field:", "ABCDE", 0)` succeeds but writes starting at the
label's own last character (the off-by-one of `col = idx + len + offset`
read as a 1-based column), destroying `":"`; the subsequent
`get_value("Field:", 0, 5)` therefore cannot find the label and yields
`None` instead of `"ABCDE"`.  With offset 1 (Scenario C) the write lands
after the label and the round trip does return `"ABCDE"`. -/
theorem input_round_trip_offset0_fails :
    (findAndSendText gridField fieldLabel abcde 0).isSome = true ∧
    getValueFromField ((findAndSendText gridField fieldLabel abcde 0).getD [])
      fieldLabel 0 5 = none ∧
    getValueFromField ((findAndSendText gridField fieldLabel abcde 1).getD [])
      fieldLabel 1 5 = some abcde := by
  decide

/-- C8: the paced character-by-character write path sends the characters of
`value` in order, each send immediately followed by the configured
inter-character delay, and performs exactly one `wait_for_field`, placed
after the last character. -/
theorem send_text_trace_spec (value : List Char) :
    sendTextTrace value =
      (value.flatMap fun c => [Ev.sendChar c, Ev.sleepCharDelay]) ++
        [Ev.waitForField] ∧
    (sendTextTrace value).count Ev.waitForField = 1 ∧
    (sendTextTrace value).getLast? = some Ev.waitForField :=
  ⟨sendTextTrace_eq value, sendTextTrace_count_wait value,
   sendTextTrace_last value⟩

/-- C9 counterexample: constructing `FieldNotFoundError` on an emulator
whose screen reads raise does not substitute a placeholder — the capture
exception escapes the unguarded `'\n'.join(Utils.get_screen(emulator))`
and replaces the field-not-found failure entirely. -/
theorem field_not_found_capture_masks :
    mkFieldNotFoundE xyzLabel (failEmu "read timeout") =
      Except.error "read timeout" ∧
    ¬ ∃ screen, mkFieldNotFoundE xyzLabel (failEmu "read timeout") =
        Except.ok (TErr.fieldNotFound xyzLabel screen) := by
  have e : mkFieldNotFoundE xyzLabel (failEmu "read timeout") =
      Except.error "read timeout" := rfl
  refine ⟨e, ?_⟩
  rintro ⟨s, h⟩
  rw [e] at h
  exact Except.noConfusion h

/-- C9 (amended): only `ScreenError` guards its capture — on a raising
capture it substitutes the placeholder diagnostic string and still
surfaces as a `ScreenError`; `FieldNotFoundError`, `InputError` and
`KeyError` run the capture unguarded, so a raising capture escapes their
constructors and masks the original error.  On a functioning emulator
`FieldNotFoundError` does attach the captured screen. -/
theorem error_capture_amended (e : String)
    (errMsg operation field value msg keyName : Row) (g : List Row) :
    mkScreenErrorE errMsg operation (failEmu e) =
      TErr.screenError errMsg operation (some (capturePlaceholder e)) ∧
    mkFieldNotFoundE field (failEmu e) = Except.error e ∧
    mkInputErrorE field value msg (failEmu e) = Except.error e ∧
    mkKeySendErrorE keyName msg (failEmu e) = Except.error e ∧
    mkFieldNotFoundE field (gridEmu g) =
      Except.ok (TErr.fieldNotFound field
        (joinRows ((List.range 24).map fun r => g.getD r []))) := by
  refine ⟨rfl, rfl, rfl, rfl, rfl⟩

/-- C10 counterexample: for a label of length 1 and offset −1 the write
path and the read path compute the same column
(`idx + 1 + (−1) = idx = idx − 1 + 1`), although the offset is negative. -/
theorem write_read_col_agree_negative_offset :
    sendCol 0 1 (-1) = posCol 0 1 (-1) ∧ ¬ ((0 : Int) ≤ -1) := by
  decide

/-- C10 (amended): the column `find_and_send_text` writes at equals the
column `find_text_position` returns exactly when `offset ≥ 0` or the label
has length 1 (for negative offsets the two differ by `len(label) − 1`). -/
theorem write_read_col_iff (idx len : Nat) (offset : Int) :
    sendCol idx len offset = posCol idx len offset ↔
      (0 ≤ offset ∨ len = 1) := by
  unfold sendCol posCol
  split
  next h => simp [h]
  next h => omega

end Autpy
